import Mathlib

/-!
Shallow embedding of the crypto double-bottom detection agent
(`src/agent.js`) and verification of its specification.

Machine numbers (JS doubles) are modelled as rationals; timestamps are
rationals holding milliseconds, as in the source.  Fallible processing is
modelled with `Except`.
-/

namespace Agent

/-- A sampled price point `[timestamp, price]` of the provider's history. -/
structure PricePoint where
  timestamp : ℚ
  price : ℚ
deriving DecidableEq, Inhabited

/-- A detected bottom, as pushed by `findBottoms`. -/
structure Bottom where
  timestamp : ℚ
  price : ℚ
  index : ℕ
deriving DecidableEq, Inhabited

/-- The pattern record built by `analyzeCrypto` when the criteria pass. -/
structure Pattern where
  firstBottom : Bottom
  secondBottom : Bottom
  neckline : ℚ
  depth : ℚ
  timespan : ℚ
deriving DecidableEq

/-- The spacing window of `CONFIG.timeBetweenBottoms`. -/
structure TimeBetween where
  min : ℚ
  max : ℚ
deriving DecidableEq

/-- The agent's configuration object. -/
structure Config where
  minVolume : ℚ
  minMarketCap : ℚ
  tolerance : ℚ
  timeBetweenBottoms : TimeBetween
  checkInterval : ℚ
deriving DecidableEq

/-- `CONFIG` of `src/agent.js`. -/
def CONFIG : Config :=
  { minVolume := 1000000
    minMarketCap := 40000000
    tolerance := 20 / 100
    timeBetweenBottoms := { min := 21, max := 42 }
    checkInterval := 1800000 }

/-- JS `Array.prototype.slice(a, b)` for the non-negative starts and ends the
agent uses: the elements at indices `a ≤ j < b`. -/
def jsSlice (l : List α) (a b : ℕ) : List α :=
  (l.drop a).take (b - a)

/-- The bottom test of the loop body of `findBottoms`: the price at `i` is
below-or-equal to every price in the 10 points before and the 10 after. -/
def isBottom (priceData : List PricePoint) (i : ℕ) : Bool :=
  let current := (priceData.getD i default).price
  (jsSlice priceData (i - 10) i).all (fun p => decide (current ≤ p.price)) &&
    (jsSlice priceData (i + 1) (i + 11)).all (fun p => decide (current ≤ p.price))

/-- The body of the `findBottoms` loop at index `i`: the bottom pushed for
`i`, when `i` is in the loop's range and `isBottom` holds there. -/
def bottomAt (priceData : List PricePoint) (i : ℕ) : Option Bottom :=
  if 10 ≤ i ∧ i + 10 < priceData.length then
    if isBottom priceData i then
      some { timestamp := (priceData.getD i default).timestamp
             price := (priceData.getD i default).price
             index := i }
    else none
  else none

/-- `findBottoms(priceData)`: the loop runs `i` from `10` while
`i < priceData.length - 10`, pushing a bottom whenever `isBottom` holds. -/
def findBottoms (priceData : List PricePoint) : List Bottom :=
  (List.range priceData.length).filterMap (bottomAt priceData)

/-- `calculateNeckline(priceData, firstBottom, secondBottom)`:
`Math.max` over the prices of `priceData.slice(firstBottom.index,
secondBottom.index)`.  JS `Math.max()` of an empty spread is `-Infinity`,
which ℚ cannot hold; the agent only reaches this with a non-empty span, and
every theorem below carries that hypothesis, so the empty branch's value is
never relied on. -/
def calculateNeckline (priceData : List PricePoint) (firstBottom secondBottom : Bottom) : ℚ :=
  match (jsSlice priceData firstBottom.index secondBottom.index).map PricePoint.price with
  | [] => 0
  | x :: xs => xs.foldl max x

/-- The pure pattern-validation core of `analyzeCrypto` (lines 96–120): take
the last two bottoms, check tolerance and spacing, and build the pattern. -/
def validate (priceData : List PricePoint) (bottoms : List Bottom) : Option Pattern :=
  if 2 ≤ bottoms.length then
    let lastTwo := bottoms.drop (bottoms.length - 2)
    let first := lastTwo.getD 0 default
    let second := lastTwo.getD 1 default
    let priceDiff := |first.price - second.price| / first.price
    let timeDiff := (second.timestamp - first.timestamp) / (1000 * 60 * 60 * 24)
    if priceDiff ≤ CONFIG.tolerance ∧
        CONFIG.timeBetweenBottoms.min ≤ timeDiff ∧
        timeDiff ≤ CONFIG.timeBetweenBottoms.max then
      some { firstBottom := first
             secondBottom := second
             neckline := calculateNeckline priceData first second
             depth := priceDiff
             timespan := timeDiff }
    else none
  else none

/-- `analyzeCrypto` stripped of the data fetch: detect bottoms, validate. -/
def analyzeCrypto (priceData : List PricePoint) : Option Pattern :=
  validate priceData (findBottoms priceData)

/-- The outcome attached to a learning record. -/
inductive Outcome where
  | success
  | failure
deriving DecidableEq

/-- An entry of `MLPredictor.history`. -/
structure LearningRecord where
  pattern : Pattern
  outcome : Outcome
deriving DecidableEq

/-- `MLPredictor`'s mutable fields. -/
structure MLState where
  history : List LearningRecord
  successRate : ℚ
deriving DecidableEq

/-- `MLPredictor.predict(pattern)`: filter the history to records whose
stored depth is within `0.1` of the query's, default `0.5` on no match,
else the success fraction among matches. -/
def predict (history : List LearningRecord) (pattern : Pattern) : ℚ :=
  let similarPatterns :=
    history.filter (fun h => decide (|h.pattern.depth - pattern.depth| < 1 / 10))
  if similarPatterns.length = 0 then 1 / 2
  else
    ((similarPatterns.filter (fun p => decide (p.outcome = Outcome.success))).length : ℚ) /
      (similarPatterns.length : ℚ)

/-- `MLPredictor.updateSuccessRate()`. -/
def updateSuccessRate (s : MLState) : MLState :=
  { s with successRate :=
      ((s.history.filter (fun h => decide (h.outcome = Outcome.success))).length : ℚ) /
        (s.history.length : ℚ) * 100 }

/-- `MLPredictor.learn(pattern, outcome)`: append, then refresh the rate. -/
def learn (s : MLState) (pattern : Pattern) (outcome : Outcome) : MLState :=
  updateSuccessRate { s with history := s.history ++ [{ pattern := pattern, outcome := outcome }] }

/-- The alert tiers of `sendAlert`; `noTier` models the fall-through in which
none of the three branch conditions fires and `alertType` stays undefined. -/
inductive AlertTier where
  | yellow
  | orange
  | red
  | noTier
deriving DecidableEq

/-- The tier-classification chain of `sendAlert` (lines 170–182).  The JS
guard `pattern.secondBottom &&` of the orange branch is always truthy, the
field being an object. -/
def classifyAlert (currentPrice : ℚ) (pattern : Pattern) : AlertTier :=
  if currentPrice < pattern.secondBottom.price * (105 / 100) then AlertTier.yellow
  else if currentPrice < pattern.neckline * (95 / 100) then AlertTier.orange
  else if pattern.neckline * (95 / 100) ≤ currentPrice then AlertTier.red
  else AlertTier.noTier

/-- An eligible asset as consumed per cycle. -/
structure Asset where
  currentPrice : ℚ
  marketCap : ℚ
  volume24h : ℚ
deriving DecidableEq

/-- One asset's pass through the loop body of `detectDoubleBottom`, with the
data already fetched: analyze, and on a double bottom predict confidence and
classify the alert.  The learning store is read, never written. -/
def processAsset (s : MLState) (priceData : List PricePoint) (asset : Asset) :
    Option (Pattern × ℚ × AlertTier) × MLState :=
  match analyzeCrypto priceData with
  | some pattern =>
      (some (pattern, predict s.history pattern, classifyAlert asset.currentPrice pattern), s)
  | none => (none, s)

/-- A completed detection cycle, or one aborted by an error which was logged. -/
inductive CycleResult where
  | completed (alerts : List (Asset × Pattern × ℚ × AlertTier))
  | aborted (loggedError : String)
deriving DecidableEq

/-- The asset loop inside the `try` of `detectDoubleBottom`: per-asset
analysis may fail (the data fetch); the first failure stops the loop and
propagates, so no later asset is analyzed. -/
def runAssets (analyze : Asset → Except String (Option Pattern)) (s : MLState) :
    List Asset → Except String (List (Asset × Pattern × ℚ × AlertTier))
  | [] => Except.ok []
  | a :: rest =>
      match analyze a with
      | Except.error e => Except.error e
      | Except.ok none => runAssets analyze s rest
      | Except.ok (some pattern) =>
          match runAssets analyze s rest with
          | Except.error e => Except.error e
          | Except.ok alerts =>
              Except.ok ((a, pattern, predict s.history pattern,
                classifyAlert a.currentPrice pattern) :: alerts)

/-- `detectDoubleBottom`: the whole loop sits inside one `try`; any raised
error is caught, logged, and the function returns normally. -/
def detectDoubleBottom (analyze : Asset → Except String (Option Pattern))
    (s : MLState) (assets : List Asset) : CycleResult :=
  match runAssets analyze s assets with
  | Except.ok alerts => CycleResult.completed alerts
  | Except.error e => CycleResult.aborted e

/-! ### List infrastructure for the slice-based loops -/

theorem jsSlice_length (l : List α) (a b : ℕ) :
    (jsSlice l a b).length = min (b - a) (l.length - a) := by
  simp [jsSlice]

theorem jsSlice_getElem? (l : List α) (a b k : ℕ) (hk : k < b - a) :
    (jsSlice l a b)[k]? = l[a + k]? := by
  simp [jsSlice, List.getElem?_take, List.getElem?_drop, hk]

theorem jsSlice_getD (l : List α) (a b k : ℕ) (d : α) (hk : k < b - a) :
    (jsSlice l a b).getD k d = l.getD (a + k) d := by
  simp [List.getD_eq_getElem?_getD, jsSlice_getElem? l a b k hk]

theorem getD_drop (l : List α) (k m : ℕ) (d : α) :
    (l.drop k).getD m d = l.getD (k + m) d := by
  simp [List.getD_eq_getElem?_getD, List.getElem?_drop]

theorem mem_jsSlice {l : List α} {a b : ℕ} {x : α} (hb : b ≤ l.length) (d : α) :
    x ∈ jsSlice l a b ↔ ∃ j, a ≤ j ∧ j < b ∧ l.getD j d = x := by
  constructor
  · intro hx
    obtain ⟨k, hk, hget⟩ := List.mem_iff_getElem.1 hx
    rw [jsSlice_length] at hk
    have hkb : k < b - a := lt_of_lt_of_le hk (min_le_left _ _)
    refine ⟨a + k, Nat.le_add_right _ _, by omega, ?_⟩
    have h1 : (jsSlice l a b).getD k d = l.getD (a + k) d := jsSlice_getD l a b k d hkb
    rw [List.getD_eq_getElem?_getD, List.getElem?_eq_getElem (by rw [jsSlice_length]; omega),
      Option.getD_some, hget] at h1
    exact h1.symm
  · rintro ⟨j, hja, hjb, hget⟩
    have hjl : j < l.length := lt_of_lt_of_le hjb hb
    have hkb : j - a < b - a := by omega
    have h1 : (jsSlice l a b).getD (j - a) d = l.getD (a + (j - a)) d :=
      jsSlice_getD l a b (j - a) d hkb
    have hjaeq : a + (j - a) = j := by omega
    rw [hjaeq] at h1
    have hlen : j - a < (jsSlice l a b).length := by rw [jsSlice_length]; omega
    have h2 : (jsSlice l a b).getD (j - a) d = (jsSlice l a b)[j - a] := by
      rw [List.getD_eq_getElem?_getD, List.getElem?_eq_getElem hlen, Option.getD_some]
    rw [h2] at h1
    rw [← hget, ← h1]
    exact List.getElem_mem _

theorem jsSlice_all_iff (l : List α) (a b : ℕ) (p : α → Bool) (d : α) (hb : b ≤ l.length) :
    (jsSlice l a b).all p = true ↔ ∀ j, a ≤ j → j < b → p (l.getD j d) = true := by
  rw [List.all_eq_true]
  constructor
  · intro h j hja hjb
    exact h _ ((mem_jsSlice hb d).2 ⟨j, hja, hjb, rfl⟩)
  · intro h x hx
    obtain ⟨j, hja, hjb, rfl⟩ := (mem_jsSlice hb d).1 hx
    exact h j hja hjb

theorem jsSlice_succ_self (l : List α) (i : ℕ) (d : α) (hi : i < l.length) :
    jsSlice l i (i + 1) = [l.getD i d] := by
  obtain ⟨x, hx⟩ := List.length_eq_one.1
    (show (jsSlice l i (i + 1)).length = 1 by rw [jsSlice_length]; omega)
  have h0 : (jsSlice l i (i + 1)).getD 0 d = l.getD (i + 0) d :=
    jsSlice_getD l i (i + 1) 0 d (by omega)
  rw [hx] at h0 ⊢
  simp only [List.getD_cons_zero, Nat.add_zero] at h0
  rw [h0]

theorem foldl_max_mem (x : ℚ) (xs : List ℚ) : xs.foldl max x ∈ x :: xs := by
  induction xs generalizing x with
  | nil => simp
  | cons y ys ih =>
      simp only [List.foldl_cons]
      rcases List.mem_cons.1 (ih (max x y)) with h | h
      · rcases max_choice x y with hc | hc
        · rw [h, hc]; exact List.mem_cons_self _ _
        · rw [h, hc]; exact List.mem_cons_of_mem _ (List.mem_cons_self _ _)
      · exact List.mem_cons_of_mem _ (List.mem_cons_of_mem _ h)

theorem le_foldl_max (x : ℚ) (xs : List ℚ) : ∀ a ∈ x :: xs, a ≤ xs.foldl max x := by
  induction xs generalizing x with
  | nil =>
      intro a ha
      rw [List.mem_singleton] at ha
      simp [ha]
  | cons y ys ih =>
      intro a ha
      simp only [List.foldl_cons]
      rcases List.mem_cons.1 ha with rfl | ha'
      · exact le_trans (le_max_left a y) (ih (max a y) _ (List.mem_cons_self _ _))
      · rcases List.mem_cons.1 ha' with rfl | ha''
        · exact le_trans (le_max_right x a) (ih (max x a) _ (List.mem_cons_self _ _))
        · exact ih (max x y) a (List.mem_cons_of_mem _ ha'')

/-! ### The neckline as a maximum -/

theorem calculateNeckline_eq_foldl (pd : List PricePoint) (fb sb : Bottom)
    (x : ℚ) (xs : List ℚ)
    (h : (jsSlice pd fb.index sb.index).map PricePoint.price = x :: xs) :
    calculateNeckline pd fb sb = xs.foldl max x := by
  unfold calculateNeckline
  rw [h]

theorem calculateNeckline_max_spec (pd : List PricePoint) (fb sb : Bottom)
    (hne : (jsSlice pd fb.index sb.index).map PricePoint.price ≠ []) :
    calculateNeckline pd fb sb ∈ (jsSlice pd fb.index sb.index).map PricePoint.price ∧
      ∀ q ∈ (jsSlice pd fb.index sb.index).map PricePoint.price,
        q ≤ calculateNeckline pd fb sb := by
  obtain ⟨x, xs, hL⟩ :
      ∃ x xs, (jsSlice pd fb.index sb.index).map PricePoint.price = x :: xs := by
    cases h : (jsSlice pd fb.index sb.index).map PricePoint.price with
    | nil => exact absurd h hne
    | cons x xs => exact ⟨x, xs, rfl⟩
  rw [hL, calculateNeckline_eq_foldl pd fb sb x xs hL]
  exact ⟨foldl_max_mem x xs, le_foldl_max x xs⟩

theorem jsSlice_map_price_ne_nil (pd : List PricePoint) (fb sb : Bottom)
    (hlt : fb.index < sb.index) (hle : sb.index ≤ pd.length) :
    (jsSlice pd fb.index sb.index).map PricePoint.price ≠ [] := by
  have hlen : ((jsSlice pd fb.index sb.index).map PricePoint.price).length =
      sb.index - fb.index := by
    rw [List.length_map, jsSlice_length]; omega
  intro h
  rw [h] at hlen
  simp only [List.length_nil] at hlen
  omega

theorem neckline_attained (pd : List PricePoint) (fb sb : Bottom)
    (hlt : fb.index < sb.index) (hle : sb.index ≤ pd.length) :
    ∃ j, fb.index ≤ j ∧ j < sb.index ∧
      calculateNeckline pd fb sb = (pd.getD j default).price := by
  obtain ⟨hmem, -⟩ :=
    calculateNeckline_max_spec pd fb sb (jsSlice_map_price_ne_nil pd fb sb hlt hle)
  obtain ⟨p, hp, hpe⟩ := List.mem_map.1 hmem
  obtain ⟨j, hja, hjb, hj⟩ := (mem_jsSlice hle default).1 hp
  exact ⟨j, hja, hjb, by rw [hj, hpe]⟩

theorem neckline_ge_getD (pd : List PricePoint) (fb sb : Bottom)
    (hlt : fb.index < sb.index) (hle : sb.index ≤ pd.length)
    (j : ℕ) (hj1 : fb.index ≤ j) (hj2 : j < sb.index) :
    (pd.getD j default).price ≤ calculateNeckline pd fb sb := by
  obtain ⟨-, hub⟩ :=
    calculateNeckline_max_spec pd fb sb (jsSlice_map_price_ne_nil pd fb sb hlt hle)
  exact hub _ (List.mem_map_of_mem _ ((mem_jsSlice hle default).2 ⟨j, hj1, hj2, rfl⟩))

theorem calculateNeckline_adjacent (pd : List PricePoint) (fb sb : Bottom)
    (hadj : sb.index = fb.index + 1) (hfb : fb.index < pd.length) :
    calculateNeckline pd fb sb = (pd.getD fb.index default).price := by
  have hs : jsSlice pd fb.index sb.index = [pd.getD fb.index default] := by
    rw [hadj]
    exact jsSlice_succ_self pd fb.index default hfb
  unfold calculateNeckline
  rw [hs]
  simp

/-! ### Characterization of the detected bottoms -/

theorem bottomAt_eq_some (pd : List PricePoint) (i : ℕ) (b : Bottom) :
    bottomAt pd i = some b ↔
      10 ≤ i ∧ i + 10 < pd.length ∧ isBottom pd i = true ∧
        b = { timestamp := (pd.getD i default).timestamp
              price := (pd.getD i default).price
              index := i } := by
  unfold bottomAt
  split_ifs with h1 h2
  · simp only [Option.some.injEq]
    constructor
    · intro h; exact ⟨h1.1, h1.2, h2, h.symm⟩
    · rintro ⟨-, -, -, rfl⟩; rfl
  · simp only [false_iff]
    rintro ⟨-, -, hb, -⟩
    exact h2 hb
  · simp only [false_iff]
    rintro ⟨ha, hb, -, -⟩
    exact h1 ⟨ha, hb⟩

theorem mem_findBottoms (pd : List PricePoint) (b : Bottom) :
    b ∈ findBottoms pd ↔
      10 ≤ b.index ∧ b.index + 10 < pd.length ∧ isBottom pd b.index = true ∧
        b.timestamp = (pd.getD b.index default).timestamp ∧
        b.price = (pd.getD b.index default).price := by
  unfold findBottoms
  rw [List.mem_filterMap]
  constructor
  · rintro ⟨i, -, heq⟩
    obtain ⟨h1, h2, h3, rfl⟩ := (bottomAt_eq_some pd i b).1 heq
    exact ⟨h1, h2, h3, rfl, rfl⟩
  · rintro ⟨h1, h2, h3, hts, hpr⟩
    refine ⟨b.index, List.mem_range.2 (by omega), ?_⟩
    rw [bottomAt_eq_some]
    refine ⟨h1, h2, h3, ?_⟩
    cases b with
    | mk ts pr ix =>
        simp only at hts hpr
        rw [hts, hpr]

theorem isBottom_iff (pd : List PricePoint) (i : ℕ) (h2 : i + 10 < pd.length) :
    isBottom pd i = true ↔
      (∀ j, i - 10 ≤ j → j < i →
        (pd.getD i default).price ≤ (pd.getD j default).price) ∧
      (∀ j, i + 1 ≤ j → j < i + 11 →
        (pd.getD i default).price ≤ (pd.getD j default).price) := by
  rw [show isBottom pd i =
      ((jsSlice pd (i - 10) i).all
          (fun p => decide ((pd.getD i default).price ≤ p.price)) &&
        (jsSlice pd (i + 1) (i + 11)).all
          (fun p => decide ((pd.getD i default).price ≤ p.price))) from rfl]
  rw [Bool.and_eq_true,
    jsSlice_all_iff pd (i - 10) i _ default (by omega),
    jsSlice_all_iff pd (i + 1) (i + 11) _ default (by omega)]
  simp only [decide_eq_true_eq]

/-- C2: `findBottoms` reports index `i` as a bottom exactly when `i` has at
least 10 points before it and 10 after it and its price is less-or-equal to
every price in the 10-point window immediately preceding it and in the
10-point window immediately following it; the output's indices are strictly
ascending, so input (timestamp) order is preserved; and any input shorter
than 21 points yields the empty result. -/
theorem bottom_detector_spec (pd : List PricePoint) :
    (∀ i : ℕ,
      ((∃ b ∈ findBottoms pd, b.index = i) ↔
        10 ≤ i ∧ i + 10 < pd.length ∧
          (∀ j, i - 10 ≤ j → j < i →
            (pd.getD i default).price ≤ (pd.getD j default).price) ∧
          (∀ j, i + 1 ≤ j → j < i + 11 →
            (pd.getD i default).price ≤ (pd.getD j default).price))) ∧
      List.Pairwise (fun b b' : Bottom => b.index < b'.index) (findBottoms pd) ∧
      (pd.length < 21 → findBottoms pd = []) := by
  refine ⟨?_, ?_, ?_⟩
  · intro i
    constructor
    · rintro ⟨b, hb, rfl⟩
      obtain ⟨h1, h2, h3, -, -⟩ := (mem_findBottoms pd b).1 hb
      obtain ⟨hpre, hpost⟩ := (isBottom_iff pd b.index h2).1 h3
      exact ⟨h1, h2, hpre, hpost⟩
    · rintro ⟨h1, h2, hpre, hpost⟩
      refine ⟨{ timestamp := (pd.getD i default).timestamp
                price := (pd.getD i default).price
                index := i }, ?_, rfl⟩
      rw [mem_findBottoms]
      exact ⟨h1, h2, (isBottom_iff pd i h2).2 ⟨hpre, hpost⟩, rfl, rfl⟩
  · unfold findBottoms
    rw [List.pairwise_filterMap]
    refine List.Pairwise.imp ?_ (List.pairwise_lt_range pd.length)
    intro i i' hlt b hb b' hb'
    rw [Option.mem_def] at hb hb'
    obtain ⟨-, -, -, rfl⟩ := (bottomAt_eq_some pd i b).1 hb
    obtain ⟨-, -, -, rfl⟩ := (bottomAt_eq_some pd i' b').1 hb'
    simpa using hlt
  · intro hshort
    unfold findBottoms
    rw [List.filterMap_eq_nil_iff]
    intro i hi
    rw [List.mem_range] at hi
    unfold bottomAt
    rw [if_neg]
    omega

/-- C4: for every pair of bottoms with `firstBottom.index < secondBottom.index`
inside the series, the neckline is the maximum price over the sub-sequence
from the first bottom's index up to but not including the second's: it is
attained on that span and it dominates every sampled price of the span, in
particular every price strictly between the two bottom indices. -/
theorem neckline_is_max_over_span (pd : List PricePoint) (fb sb : Bottom)
    (hlt : fb.index < sb.index) (hle : sb.index ≤ pd.length) :
    (∃ j, fb.index ≤ j ∧ j < sb.index ∧
        calculateNeckline pd fb sb = (pd.getD j default).price) ∧
      ∀ j, fb.index ≤ j → j < sb.index →
        (pd.getD j default).price ≤ calculateNeckline pd fb sb :=
  ⟨neckline_attained pd fb sb hlt hle,
   fun j hj1 hj2 => neckline_ge_getD pd fb sb hlt hle j hj1 hj2⟩

/-- The price series of the spec's neckline example: the span between the two
bottoms contains the prices 90, 95, 110, 92, so the neckline must be 110. -/
def pdNecklineExample : List PricePoint :=
  [{ timestamp := 0, price := 80 }, { timestamp := 1, price := 90 },
   { timestamp := 2, price := 95 }, { timestamp := 3, price := 110 },
   { timestamp := 4, price := 92 }, { timestamp := 5, price := 85 }]

def fbNecklineExample : Bottom := { timestamp := 0, price := 80, index := 0 }

def sbNecklineExample : Bottom := { timestamp := 5, price := 85, index := 5 }

/-- Witness for C4 at the spec's example: the hypotheses hold concretely, the
neckline evaluates to 110, and the theorem applies. -/
theorem neckline_is_max_over_span_witness :
    fbNecklineExample.index < sbNecklineExample.index ∧
      sbNecklineExample.index ≤ pdNecklineExample.length ∧
      calculateNeckline pdNecklineExample fbNecklineExample sbNecklineExample = 110 ∧
      ((∃ j, fbNecklineExample.index ≤ j ∧ j < sbNecklineExample.index ∧
          calculateNeckline pdNecklineExample fbNecklineExample sbNecklineExample =
            (pdNecklineExample.getD j default).price) ∧
        ∀ j, fbNecklineExample.index ≤ j → j < sbNecklineExample.index →
          (pdNecklineExample.getD j default).price ≤
            calculateNeckline pdNecklineExample fbNecklineExample sbNecklineExample) :=
  ⟨by decide, by decide, by decide,
   neckline_is_max_over_span pdNecklineExample fbNecklineExample sbNecklineExample
     (by decide) (by decide)⟩

/-- C8: for two bottoms produced by `findBottoms` on the same series with
`b1.index < b2.index`, the neckline's span is non-empty (it contains the
first bottom's own index), so the result is a value ≥ `b1.price`; and in the
degenerate adjacent case `b2.index = b1.index + 1` the neckline is exactly
`b1.price`. -/
theorem neckline_from_detected_bottoms (pd : List PricePoint) (b1 b2 : Bottom)
    (h1 : b1 ∈ findBottoms pd) (h2 : b2 ∈ findBottoms pd)
    (hlt : b1.index < b2.index) :
    jsSlice pd b1.index b2.index ≠ [] ∧
      b1.price ≤ calculateNeckline pd b1 b2 ∧
      (b2.index = b1.index + 1 → calculateNeckline pd b1 b2 = b1.price) := by
  obtain ⟨-, hlen1, -, -, hpr1⟩ := (mem_findBottoms pd b1).1 h1
  obtain ⟨-, hlen2, -, -, -⟩ := (mem_findBottoms pd b2).1 h2
  have hle : b2.index ≤ pd.length := by omega
  refine ⟨?_, ?_, ?_⟩
  · intro h
    have hl := congrArg List.length h
    rw [jsSlice_length] at hl
    simp only [List.length_nil] at hl
    omega
  · rw [hpr1]
    exact neckline_ge_getD pd b1 b2 hlt hle b1.index le_rfl hlt
  · intro hadj
    rw [calculateNeckline_adjacent pd b1 b2 hadj (by omega), hpr1]

/-- A 22-point plateau: every price equal, so indices 10 and 11 are both
bottoms — adjacent, as the ≤-based test intends for flat regions. -/
def pdPlateau : List PricePoint :=
  List.replicate 22 { timestamp := 0, price := 5 }

def b1Plateau : Bottom := { timestamp := 0, price := 5, index := 10 }

def b2Plateau : Bottom := { timestamp := 0, price := 5, index := 11 }

/-- Witness for C8 on the plateau: both bottoms are detected, they are
adjacent, and the neckline evaluates to the first bottom's price. -/
theorem neckline_from_detected_bottoms_witness :
    b1Plateau ∈ findBottoms pdPlateau ∧ b2Plateau ∈ findBottoms pdPlateau ∧
      calculateNeckline pdPlateau b1Plateau b2Plateau = 5 ∧
      (jsSlice pdPlateau b1Plateau.index b2Plateau.index ≠ [] ∧
        b1Plateau.price ≤ calculateNeckline pdPlateau b1Plateau b2Plateau ∧
        (b2Plateau.index = b1Plateau.index + 1 →
          calculateNeckline pdPlateau b1Plateau b2Plateau = b1Plateau.price)) :=
  ⟨by decide, by decide, by decide,
   neckline_from_detected_bottoms pdPlateau b1Plateau b2Plateau
     (by decide) (by decide) (by decide)⟩

/-! ### The pattern validator -/

theorem validate_drop_lastTwo (pd : List PricePoint) (bs : List Bottom) :
    validate pd bs = validate pd (bs.drop (bs.length - 2)) := by
  by_cases h : 2 ≤ bs.length
  · have hlen : (bs.drop (bs.length - 2)).length = 2 := by
      rw [List.length_drop]; omega
    unfold validate
    rw [hlen, if_pos h, if_pos (le_refl 2)]
    norm_num
  · have h0 : bs.length - 2 = 0 := by omega
    rw [h0, List.drop_zero]

theorem validate_isSome_iff (pd : List PricePoint) (bs : List Bottom) :
    (validate pd bs).isSome ↔
      2 ≤ bs.length ∧
        |(bs.getD (bs.length - 2) default).price -
            (bs.getD (bs.length - 1) default).price| /
          (bs.getD (bs.length - 2) default).price ≤ 20 / 100 ∧
        21 ≤ ((bs.getD (bs.length - 1) default).timestamp -
            (bs.getD (bs.length - 2) default).timestamp) / 86400000 ∧
        ((bs.getD (bs.length - 1) default).timestamp -
            (bs.getD (bs.length - 2) default).timestamp) / 86400000 ≤ 42 := by
  by_cases h : 2 ≤ bs.length
  · have e0 : (bs.drop (bs.length - 2)).getD 0 default = bs.getD (bs.length - 2) default := by
      rw [getD_drop, Nat.add_zero]
    have e1 : (bs.drop (bs.length - 2)).getD 1 default = bs.getD (bs.length - 1) default := by
      rw [getD_drop]
      congr 1
      omega
    have hdiv : (1000 * 60 * 60 * 24 : ℚ) = 86400000 := by norm_num
    have htol : CONFIG.tolerance = 20 / 100 := rfl
    have hmin : CONFIG.timeBetweenBottoms.min = 21 := rfl
    have hmax : CONFIG.timeBetweenBottoms.max = 42 := rfl
    unfold validate
    rw [if_pos h]
    simp only [e0, e1, hdiv, htol, hmin, hmax]
    split_ifs with hc
    · simp only [Option.isSome_some, true_iff]
      exact ⟨h, hc.1, hc.2.1, hc.2.2⟩
    · simp only [Option.isSome_none, Bool.false_eq_true, false_iff]
      rintro ⟨-, hc1, hc2, hc3⟩
      exact hc ⟨hc1, hc2, hc3⟩
  · unfold validate
    rw [if_neg h]
    simp [h]

/-- C1: the validator looks only at the last two bottoms of the detector's
output — dropping all earlier ones changes nothing — and it returns a
pattern exactly when fewer than 2 bottoms is ruled out, the depth
`|first.price − second.price| / first.price` is at most 0.20, and the
timespan in days between the two bottoms lies within `[21, 42]`; otherwise
it returns none. -/
theorem pattern_validator_spec (pd : List PricePoint) (bs : List Bottom) :
    validate pd bs = validate pd (bs.drop (bs.length - 2)) ∧
      ((validate pd bs).isSome ↔
        2 ≤ bs.length ∧
          |(bs.getD (bs.length - 2) default).price -
              (bs.getD (bs.length - 1) default).price| /
            (bs.getD (bs.length - 2) default).price ≤ 20 / 100 ∧
          21 ≤ ((bs.getD (bs.length - 1) default).timestamp -
              (bs.getD (bs.length - 2) default).timestamp) / 86400000 ∧
          ((bs.getD (bs.length - 1) default).timestamp -
              (bs.getD (bs.length - 2) default).timestamp) / 86400000 ≤ 42) :=
  ⟨validate_drop_lastTwo pd bs, validate_isSome_iff pd bs⟩

/-! ### The spec's $100/$108, 30-day validator test -/

/-- Price data for the spec's validator test: bottoms at $100 and $108
exactly 30 days (2592000000 ms) apart. -/
def pdTwoBottoms : List PricePoint :=
  [{ timestamp := 0, price := 100 }, { timestamp := 2592000000, price := 108 }]

def bsTwoBottoms : List Bottom :=
  [{ timestamp := 0, price := 100, index := 0 },
   { timestamp := 2592000000, price := 108, index := 1 }]

theorem validate_twoBottoms_eq :
    validate pdTwoBottoms bsTwoBottoms =
      some { firstBottom := { timestamp := 0, price := 100, index := 0 }
             secondBottom := { timestamp := 2592000000, price := 108, index := 1 }
             neckline := 100
             depth := 2 / 25
             timespan := 30 } := by
  have step : validate pdTwoBottoms bsTwoBottoms =
      if |(100 : ℚ) - 108| / 100 ≤ CONFIG.tolerance ∧
          CONFIG.timeBetweenBottoms.min ≤ ((2592000000 : ℚ) - 0) / (1000 * 60 * 60 * 24) ∧
          ((2592000000 : ℚ) - 0) / (1000 * 60 * 60 * 24) ≤ CONFIG.timeBetweenBottoms.max then
        some { firstBottom := { timestamp := 0, price := 100, index := 0 }
               secondBottom := { timestamp := 2592000000, price := 108, index := 1 }
               neckline :=
                 calculateNeckline pdTwoBottoms
                   { timestamp := 0, price := 100, index := 0 }
                   { timestamp := 2592000000, price := 108, index := 1 }
               depth := |(100 : ℚ) - 108| / 100
               timespan := ((2592000000 : ℚ) - 0) / (1000 * 60 * 60 * 24) }
      else none := rfl
  rw [step, if_pos]
  · have hneck : calculateNeckline pdTwoBottoms
        { timestamp := 0, price := 100, index := 0 }
        { timestamp := 2592000000, price := 108, index := 1 } = 100 := rfl
    rw [hneck]
    have hdep : |(100 : ℚ) - 108| / 100 = 2 / 25 := by norm_num
    have hts : ((2592000000 : ℚ) - 0) / (1000 * 60 * 60 * 24) = 30 := by norm_num
    rw [hdep, hts]
  · refine ⟨?_, ?_, ?_⟩ <;> norm_num [CONFIG]

/-- C6 counterexample: on the spec's own test input the code's depth is
`|100 − 108| / 100 = 0.08 = 2/25`, which is not within 0.005 of the claimed
`0.0741` (that value is `8/108`, a slip of the spec's formula). -/
theorem validator_100_108_depth_not_0741 :
    (validate pdTwoBottoms bsTwoBottoms).map Pattern.depth = some (2 / 25) ∧
      ¬|(2 : ℚ) / 25 - 741 / 10000| < 5 / 1000 := by
  constructor
  · rw [validate_twoBottoms_eq]
    rfl
  · rw [show (2 : ℚ) / 25 - 741 / 10000 = 59 / 10000 by norm_num,
      abs_of_nonneg (by norm_num : (0 : ℚ) ≤ 59 / 10000)]
    norm_num

/-- C6 as amended: the validator accepts the $100/$108 pair 30 days apart and
the produced pattern has depth exactly 0.08 and timespan 30 days. -/
theorem validator_100_108_accepts :
    (validate pdTwoBottoms bsTwoBottoms).map (fun p => (p.depth, p.timespan)) =
      some (2 / 25, 30) := by
  rw [validate_twoBottoms_eq]
  rfl

/-! ### The confidence estimator -/

/-- C3: `predict` returns the success fraction among the records whose stored
depth is within 0.10 (strictly) of the query's, `0.5` when no record matches
— in particular on an empty history — and its result always lies in
`[0, 1]`. -/
theorem confidence_estimator_spec (history : List LearningRecord) (pattern : Pattern) :
    predict history pattern =
      (if history.countP
            (fun h => decide (|h.pattern.depth - pattern.depth| < 1 / 10)) = 0 then
        1 / 2
      else
        ((history.countP (fun h =>
            decide (h.outcome = Outcome.success) &&
              decide (|h.pattern.depth - pattern.depth| < 1 / 10)) : ℕ) : ℚ) /
          ((history.countP
            (fun h => decide (|h.pattern.depth - pattern.depth| < 1 / 10)) : ℕ) : ℚ)) ∧
      0 ≤ predict history pattern ∧ predict history pattern ≤ 1 ∧
      predict [] pattern = 1 / 2 := by
  have heq : predict history pattern =
      (if history.countP
            (fun h => decide (|h.pattern.depth - pattern.depth| < 1 / 10)) = 0 then
        (1 / 2 : ℚ)
      else
        ((history.countP (fun h =>
            decide (h.outcome = Outcome.success) &&
              decide (|h.pattern.depth - pattern.depth| < 1 / 10)) : ℕ) : ℚ) /
          ((history.countP
            (fun h => decide (|h.pattern.depth - pattern.depth| < 1 / 10)) : ℕ) : ℚ)) := by
    unfold predict
    simp only [List.countP_eq_length_filter, List.filter_filter]
  refine ⟨heq, ?_, ?_, rfl⟩
  · rw [heq]
    split_ifs with h
    · norm_num
    · positivity
  · rw [heq]
    split_ifs with h
    · norm_num
    · rw [div_le_one (by exact_mod_cast Nat.pos_of_ne_zero h)]
      rw [Nat.cast_le]
      refine List.countP_mono_left fun x _ hx => ?_
      rw [Bool.and_eq_true] at hx
      exact hx.2

/-! ### The alert classifier -/

/-- C5: the classifier's conditions are evaluated in strict priority order:
whenever `currentPrice < secondBottom.price × 1.05` it yields YELLOW, even
when the ORANGE condition also holds. -/
theorem classify_priority_yellow (pattern : Pattern) (currentPrice : ℚ)
    (h : currentPrice < pattern.secondBottom.price * (105 / 100)) :
    classifyAlert currentPrice pattern = AlertTier.yellow := by
  unfold classifyAlert
  rw [if_pos h]

/-- The spec's classifier test pattern: neckline 100, second bottom 90. -/
def patternNeckline100 : Pattern :=
  { firstBottom := { timestamp := 0, price := 90, index := 0 }
    secondBottom := { timestamp := 2592000000, price := 90, index := 30 }
    neckline := 100
    depth := 0
    timespan := 30 }

/-- Witness for C5: with neckline 100 and second-bottom price 90, both price
94 and price 93 classify YELLOW, the latter even though the ORANGE condition
`93 < 100 × 0.95` also holds. -/
theorem classify_priority_yellow_witness :
    classifyAlert 94 patternNeckline100 = AlertTier.yellow ∧
      classifyAlert 93 patternNeckline100 = AlertTier.yellow ∧
      (93 : ℚ) < patternNeckline100.neckline * (95 / 100) :=
  ⟨classify_priority_yellow patternNeckline100 94 (by norm_num [patternNeckline100]),
   classify_priority_yellow patternNeckline100 93 (by norm_num [patternNeckline100]),
   by norm_num [patternNeckline100]⟩

/-- C7: over the rationals the three tier conditions are collectively
exhaustive — at least one of YELLOW, ORANGE, RED holds for every current
price — so the classifier's fall-through is unreachable: it never returns
`noTier`. -/
theorem classify_exhaustive (pattern : Pattern) (currentPrice : ℚ) :
    (currentPrice < pattern.secondBottom.price * (105 / 100) ∨
      currentPrice < pattern.neckline * (95 / 100) ∨
      pattern.neckline * (95 / 100) ≤ currentPrice) ∧
      classifyAlert currentPrice pattern ≠ AlertTier.noTier := by
  constructor
  · rcases lt_or_le currentPrice (pattern.neckline * (95 / 100)) with h | h
    · exact Or.inr (Or.inl h)
    · exact Or.inr (Or.inr h)
  · unfold classifyAlert
    split_ifs with h1 h2 h3 <;> simp_all

/-! ### Determinism of the per-asset pipeline -/

/-- C9: one asset's analysis and alert tiering are deterministic and do not
touch the learning store: the state after a run is the input state, and a
second run on the same inputs and the resulting state yields the identical
pattern, confidence and tier. -/
theorem pipeline_deterministic (s : MLState) (priceData : List PricePoint) (asset : Asset) :
    (processAsset s priceData asset).2 = s ∧
      (processAsset ((processAsset s priceData asset).2) priceData asset).1 =
        (processAsset s priceData asset).1 := by
  unfold processAsset
  cases analyzeCrypto priceData <;> simp

/-! ### Error propagation in the detection cycle -/

/-- C10: when the analysis of one asset raises and every asset before it
succeeded, the whole cycle aborts with that error logged — later assets are
never reached, whatever they are — and `detectDoubleBottom` itself returns
normally (a `CycleResult`, never a propagated exception). -/
theorem cycle_aborts_on_error (analyze : Asset → Except String (Option Pattern))
    (s : MLState) (pre : List Asset) (a : Asset) (post : List Asset) (e : String)
    (herr : analyze a = Except.error e)
    (hok : ∀ b ∈ pre, ∃ r, analyze b = Except.ok r) :
    detectDoubleBottom analyze s (pre ++ a :: post) = CycleResult.aborted e := by
  have key : ∀ pre' : List Asset, (∀ b ∈ pre', ∃ r, analyze b = Except.ok r) →
      runAssets analyze s (pre' ++ a :: post) = Except.error e := by
    intro pre'
    induction pre' with
    | nil =>
        intro _
        simp [runAssets, herr]
    | cons b rest ih =>
        intro hok'
        obtain ⟨r, hr⟩ := hok' b (List.mem_cons_self _ _)
        have htail := ih fun x hx => hok' x (List.mem_cons_of_mem _ hx)
        cases r with
        | none => simp [runAssets, hr, htail]
        | some p => simp [runAssets, hr, htail]
  unfold detectDoubleBottom
  rw [key pre hok]

def assetOk : Asset := { currentPrice := 1, marketCap := 50000000, volume24h := 2000000 }

def assetBad : Asset := { currentPrice := 0, marketCap := 50000000, volume24h := 2000000 }

/-- A concrete analysis in which exactly the zero-priced asset's data fetch
fails. -/
def analyzeFailingOnZero : Asset → Except String (Option Pattern) := fun a =>
  if a.currentPrice = 0 then Except.error "fetch failed" else Except.ok none

def emptyML : MLState := { history := [], successRate := 0 }

/-- Witness for C10: in a cycle over ok, failing, ok assets the failure of
the middle asset aborts the whole cycle with its error logged. -/
theorem cycle_aborts_on_error_witness :
    detectDoubleBottom analyzeFailingOnZero emptyML [assetOk, assetBad, assetOk] =
      CycleResult.aborted "fetch failed" :=
  cycle_aborts_on_error analyzeFailingOnZero emptyML [assetOk] assetBad [assetOk]
    "fetch failed" rfl
    (by
      intro b hb
      rw [List.mem_singleton] at hb
      exact ⟨none, by rw [hb]; exact rfl⟩)

end Agent
